import Mathlib

/-!
Shallow embedding of the mind-map editor in `src/src/App.tsx`, together with
theorems checking the natural-language specification against it.

Modelling conventions:
* JS numbers are modelled as `ℚ`; `Math.ceil` is `Int.ceil`, `Math.round`
  (round half toward `+∞`) is `fun q => Int.floor (q + 1/2)`.
* `Math.cos`, `Math.sin`, `Math.hypot`, `Math.exp` and the irrational
  constant `GOLDEN_ANGLE = pi * (3 - sqrt 5)` are kept abstract as fields of
  an environment `Env`, since no verified claim depends on their values;
  `Date.now()` (used for fresh edge ids) is the `now` field.
* React state plus the mutable refs used by the handlers are collected into
  one record `AppState`; a handler is a function `AppState → AppState`.
* The `mindmap` namespace holds every definition translated from the source.
-/

namespace Mindmap

/-- A point, used for positions and for the pan offset. -/
structure Point where
  x : ℚ
  y : ℚ
deriving DecidableEq, Repr

/-- `MindNode` from App.tsx.  `fillColor?` and `bold?` are optional in the
source; created nodes always set `bold: false`, and the only read is the
truthiness test `n.bold ? ... : ...`, so `bold` is modelled as `Bool`. -/
structure MindNode where
  id : ℕ
  label : String
  x : ℚ
  y : ℚ
  w : ℚ
  h : ℚ
  strokeColor : String
  fillColor : Option String
  bold : Bool
deriving DecidableEq, Repr

/-- `Link` from App.tsx; `label?` and `dashed?` are optional fields. -/
structure Link where
  id : ℕ
  source : ℕ
  target : ℕ
  label : Option String
  dashed : Option Bool
deriving DecidableEq, Repr

/-- `Snapshot` from App.tsx (the undo/redo unit).  `selectedIds` and
`selectedEdgeIds` are `Array.from` of JS sets, i.e. lists in insertion
order. -/
structure Snapshot where
  nodes : List MindNode
  edges : List Link
  pan : Point
  scale : ℚ
  selectedId : Option ℕ
  selectedIds : List ℕ
  selectedEdgeIds : List ℕ
deriving DecidableEq, Repr

/-- The React state and the mutable refs the verified handlers touch:
`nodes`, `edges`, `pan`, `scale`, the selection, the undo/redo stacks
(list head = top of stack), the Shift+Tab path refs and the
`freshTyping` ref. -/
structure AppState where
  nodes : List MindNode
  edges : List Link
  pan : Point
  scale : ℚ
  selectedId : Option ℕ
  selectedIds : List ℕ
  selectedEdgeIds : List ℕ
  undoStack : List Snapshot
  redoStack : List Snapshot
  shiftTabPath : Option (List ℕ)
  shiftTabIndex : ℕ
  freshTyping : Bool
deriving DecidableEq, Repr

/-- Abstract environment: transcendental functions, the irrational spiral
constant, the current clock value (`Date.now()`), and the size of the svg
viewport rectangle (`getBoundingClientRect`). -/
structure Env where
  now : ℕ
  cos : ℚ → ℚ
  sin : ℚ → ℚ
  hypot : ℚ → ℚ → ℚ
  exp : ℚ → ℚ
  goldenAngle : ℚ
  rectW : ℚ
  rectH : ℚ

/-- `BASE_W` -/
def BASE_W : ℚ := 120
/-- `BASE_H` -/
def BASE_H : ℚ := 64
/-- `CHILD_RADIUS` -/
def CHILD_RADIUS : ℚ := 160

/-- `clamp(v, a, b) = Math.max(a, Math.min(b, v))` -/
def clamp (v a b : ℚ) : ℚ := max a (min b v)

/-- JS `Math.round`: rounds half toward positive infinity. -/
def jsRound (q : ℚ) : ℚ := ((⌊q + 1/2⌋ : ℤ) : ℚ)

/-- JS `Math.ceil` as a rational-valued function. -/
def jsCeil (q : ℚ) : ℚ := ((⌈q⌉ : ℤ) : ℚ)

/-- `approxTextWidth(text, fontSize) = text.length * fontSize * 0.6` -/
def approxTextWidth (text : String) (fontSize : ℚ) : ℚ :=
  (text.length : ℚ) * fontSize * (3/5)

/-! ### layoutLabel -/

/-- The characters matched by the `\s` class in the splits used by
`layoutLabel` (the labels treated here only ever contain these). -/
def jsIsSpace (c : Char) : Bool :=
  c = ' ' || c = '\t' || c = '\n' || c = '\r'

/-- Helper for `splitWords`: walk the characters, collecting the current
word (in reverse). -/
def splitWordsGo : List Char → List Char → List String
  | [], cur => if cur.isEmpty then [] else [String.mk cur.reverse]
  | c :: rest, cur =>
    if jsIsSpace c then
      if cur.isEmpty then splitWordsGo rest []
      else String.mk cur.reverse :: splitWordsGo rest []
    else splitWordsGo rest (c :: cur)

/-- `label.split(/\s+/).filter(Boolean)`: the maximal non-whitespace runs
of `label`, in order. -/
def splitWords (label : String) : List String :=
  splitWordsGo label.data []

/-- The inner `for`-loop of `rebuild` in `layoutLabel`: greedy word wrap at
width `width - paddingX*2`; `cur` is the `current` accumulator, pushed when
the next word does not fit (and, being a JS truthiness test, only when it
is nonempty). -/
def wrapGo (baseFont width : ℚ) : List String → String → List String
  | [], cur => if cur = "" then [] else [cur]
  | w :: rest, cur =>
    -- with an empty accumulator `test = w`, and both outcomes of the fit
    -- test coincide: nothing is pushed (an empty `current` is falsy) and
    -- `current` becomes `w`
    if cur = "" then wrapGo baseFont width rest w
    else if approxTextWidth (cur ++ " " ++ w) baseFont ≤ width - 16 * 2 then
      wrapGo baseFont width rest (cur ++ " " ++ w)
    else cur :: wrapGo baseFont width rest w

/-- One wrapping pass of `rebuild`: wraps `words` (or `[label]` when the
word list is empty) at the given width. -/
def buildLines (words : List String) (label : String) (baseFont width : ℚ) : List String :=
  wrapGo baseFont width (if words.isEmpty then [label] else words) ""

/-- `label.replace(/\s+/g, " ").trim().length || 1`: the length of the
words joined by single spaces, floored at 1. -/
def normalizedTextLen (words : List String) : ℕ :=
  let n := if words.isEmpty then 0 else (words.map String.length).sum + (words.length - 1)
  if n = 0 then 1 else n

/-- The width enlargement performed by `rebuild` when more than `maxLines`
lines were produced: grow `width` to fit the average target
characters-per-line. -/
def growWidth (words : List String) (baseFont width : ℚ) : ℚ :=
  let textLen := normalizedTextLen words
  let targetCharsPerLine : ℚ := jsCeil ((textLen : ℚ) / 3)
  max width (jsCeil (targetCharsPerLine * baseFont * (3/5) + 16 * 2))

/-- The `for (let i = 0; i < 6; i++) if (rebuild()) break;` loop.  Each
call performs one `rebuild` pass; `fuel` counts the remaining passes after
the current one (the source performs 6 passes, so the loop is entered with
fuel 5).  When the last pass still exceeds 3 lines, the loop exits with
that pass's lines and the already-enlarged width, exactly as the source
does. -/
def layoutLoop (words : List String) (label : String) (baseFont : ℚ) :
    ℕ → ℚ → List String × ℚ
  | 0, width =>
    let lines := buildLines words label baseFont width
    if lines.length ≤ 3 then (lines, width)
    else (lines, growWidth words baseFont width)
  | fuel + 1, width =>
    let lines := buildLines words label baseFont width
    if lines.length ≤ 3 then (lines, width)
    else layoutLoop words label baseFont fuel (growWidth words baseFont width)

/-- Result record of `layoutLabel`. -/
structure LabelLayout where
  lines : List String
  width : ℚ
  height : ℚ
  lineHeight : ℚ
  paddingX : ℚ
  paddingY : ℚ
  fontSize : ℚ
deriving DecidableEq, Repr

/-- `layoutLabel(label, baseFont, minW)` from App.tsx. -/
def layoutLabel (label : String) (baseFont minW : ℚ) : LabelLayout :=
  let lineHeight := jsRound (baseFont * (23/20))
  let words := splitWords label
  let startWidth := max minW BASE_W
  let p := layoutLoop words label baseFont 5 startWidth
  let lines := p.1
  let textW := (lines.map (fun t => approxTextWidth t baseFont)).foldr max 0
  let width := max p.2 (jsCeil (textW + 16 * 2))
  let height := max BASE_H (jsCeil ((lines.length : ℚ) * lineHeight + 12 * 2))
  { lines := if lines.isEmpty then [""] else lines
    width := width
    height := height
    lineHeight := lineHeight
    paddingX := 16
    paddingY := 12
    fontSize := baseFont }

/-! ### Geometry helpers -/

/-- `distPointToSeg(px, py, x1, y1, x2, y2)`; the guard `len2 || 1e-6`
replaces a zero squared length by `1e-6`. -/
def distPointToSeg (env : Env) (px py x1 y1 x2 y2 : ℚ) : ℚ :=
  let vx := x2 - x1
  let vy := y2 - y1
  let wx := px - x1
  let wy := py - y1
  let len2 := if vx * vx + vy * vy = 0 then 1/1000000 else vx * vx + vy * vy
  let t := max 0 (min 1 ((wx * vx + wy * vy) / len2))
  let cx := x1 + t * vx
  let cy := y1 + t * vy
  env.hypot (px - cx) (py - cy)

/-- `rectRadius(n) = Math.max(n.w, n.h) / 2` -/
def rectRadius (n : MindNode) : ℚ := max n.w n.h / 2

/-- `isPointInNode(n, x, y)` -/
def isPointInNode (n : MindNode) (x y : ℚ) : Bool :=
  |x - n.x| ≤ n.w / 2 && |y - n.y| ≤ n.h / 2

/-! ### Selection and history -/

/-- `snapshot()`: the current core state as an undo/redo unit. -/
def snapshot (s : AppState) : Snapshot :=
  { nodes := s.nodes
    edges := s.edges
    pan := s.pan
    scale := s.scale
    selectedId := s.selectedId
    selectedIds := s.selectedIds
    selectedEdgeIds := s.selectedEdgeIds }

/-- `pushHistory()`: deep-clone the current state onto the undo stack and
clear the redo stack (`cloneSnapshot` is a JSON round-trip, the identity on
this pure data). -/
def pushHistory (s : AppState) : AppState :=
  { s with undoStack := snapshot s :: s.undoStack, redoStack := [] }

/-- `restore(s)`: overwrite the seven core state fields from a snapshot. -/
def restore (s : AppState) (σ : Snapshot) : AppState :=
  { s with
    nodes := σ.nodes
    edges := σ.edges
    pan := σ.pan
    scale := σ.scale
    selectedId := σ.selectedId
    selectedIds := σ.selectedIds
    selectedEdgeIds := σ.selectedEdgeIds }

/-- `undo()`: pop the undo stack; push the current snapshot onto the redo
stack; restore the popped snapshot.  Empty stack is a no-op. -/
def undo (s : AppState) : AppState :=
  match s.undoStack with
  | [] => s
  | σ :: rest =>
    restore { s with undoStack := rest, redoStack := snapshot s :: s.redoStack } σ

/-- `redo()`: inverse of `undo`. -/
def redo (s : AppState) : AppState :=
  match s.redoStack with
  | [] => s
  | σ :: rest =>
    restore { s with redoStack := rest, undoStack := snapshot s :: s.undoStack } σ

/-- `selectOnly(id)`: note that it resets the Shift+Tab path refs. -/
def selectOnly (id : ℕ) (s : AppState) : AppState :=
  { s with
    shiftTabPath := none
    shiftTabIndex := 0
    selectedId := some id
    selectedIds := [id]
    selectedEdgeIds := []
    freshTyping := true }

/-- `clearSelection()` -/
def clearSelection (s : AppState) : AppState :=
  { s with
    selectedId := none
    selectedIds := []
    selectedEdgeIds := []
    freshTyping := true }

/-! ### Derived queries -/

/-- `getParentId(childId)`: the source of the first edge targeting the
node. -/
def getParentId (s : AppState) (childId : ℕ) : Option ℕ :=
  (s.edges.find? (fun e => e.target == childId)).map (·.source)

/-- Insertion sort by `≤`; models `.sort((a, b) => a - b)` on numbers
(structural recursion so that concrete runs reduce in the kernel). -/
def sortedInsert (a : ℕ) : List ℕ → List ℕ
  | [] => [a]
  | b :: l => if a ≤ b then a :: b :: l else b :: sortedInsert a l

/-- Ascending sort, see `sortedInsert`. -/
def sortAsc : List ℕ → List ℕ
  | [] => []
  | a :: l => sortedInsert a (sortAsc l)

/-- `getChildrenOf(parentId)`: targets of the edges leaving the node,
sorted by id. -/
def getChildrenOf (s : AppState) (parentId : ℕ) : List ℕ :=
  sortAsc ((s.edges.filter (fun e => e.source == parentId)).map (·.target))

/-- `buildRootPath(startId)` builds the parent chain in root-to-leaf
order.  The source `while` loop has no termination guard and diverges when
the edges form a parent cycle; the fuel bounds the walk by the number of
edges, which every acyclic parent chain satisfies. -/
def buildRootPathGo (s : AppState) : ℕ → ℕ → List ℕ → List ℕ
  | 0, cur, acc => cur :: acc
  | fuel + 1, cur, acc =>
    match getParentId s cur with
    | none => cur :: acc
    | some p => buildRootPathGo s fuel p (cur :: acc)

/-- `buildRootPath(startId)`, with the fuel discussed at
`buildRootPathGo`. -/
def buildRootPath (s : AppState) (startId : ℕ) : List ℕ :=
  buildRootPathGo s s.edges.length startId []

/-! ### Store operations -/

/-- `isPositionFree(x, y, parentId?)`.  In the edge loop the source guards
with `parentId && ...`, a JS truthiness test, hence the extra `pid ≠ 0`. -/
def isPositionFree (env : Env) (s : AppState) (x y : ℚ) (parentId : Option ℕ) : Bool :=
  let nodeClear := s.nodes.all fun n =>
    if parentId = some n.id then true
    else
      let d := env.hypot (n.x - x) (n.y - y)
      let newR := max BASE_W BASE_H / 2
      ! decide (d < rectRadius n + newR + 8)
  let edgeClear := s.edges.all fun e =>
    if (match parentId with
        | some pid => pid ≠ 0 && (e.source == pid || e.target == pid)
        | none => false) then true
    else
      match s.nodes.find? (fun n => n.id == e.source),
            s.nodes.find? (fun n => n.id == e.target) with
      | some ns, some nt =>
        ! decide (distPointToSeg env x y ns.x ns.y nt.x nt.y < max BASE_W BASE_H / 2 + 6)
      | _, _ => true
  nodeClear && edgeClear

/-- The `exists` test of `ensureEdge` (also reused verbatim by the
pointer-up link commit): some edge joins the unordered pair. -/
def pairExists (edges : List Link) (a b : ℕ) : Bool :=
  edges.any fun ed => (ed.source == a && ed.target == b) ||
                      (ed.source == b && ed.target == a)

/-- `ensureEdge(a, b)`: no-op on `a == b` or when an edge already joins the
unordered pair, else append one fresh edge whose id is `Date.now()`. -/
def ensureEdge (env : Env) (a b : ℕ) (s : AppState) : AppState :=
  if a == b then s
  else if pairExists s.edges a b then s
  else { s with edges := s.edges ++ [{ id := env.now, source := a, target := b,
                                       label := none, dashed := none }] }

/-- `Math.max(...nodes.map(n => n.id)) + 1` for a nonempty node list (the
caller handles the empty case). -/
def nextNodeId (nodes : List MindNode) : ℕ :=
  (nodes.map (·.id)).foldr max 0 + 1

/-- `toScreen(wx, wy) = pan + world * scale` -/
def toScreen (s : AppState) (wx wy : ℚ) : Point :=
  { x := s.pan.x + wx * s.scale, y := s.pan.y + wy * s.scale }

/-- `bringBoxIntoView(cx, cy, w, h, margin)`: shift the pan, independently
per axis, so that the screen box keeps `margin` pixels from the viewport
boundary. -/
def bringBoxIntoView (env : Env) (cx cy w h margin : ℚ) (s : AppState) : AppState :=
  let left := toScreen s (cx - w / 2) (cy - h / 2)
  let right := toScreen s (cx + w / 2) (cy + h / 2)
  let panX1 := if left.x < margin then s.pan.x + (margin - left.x) else s.pan.x
  let panX2 := if right.x > env.rectW - margin then panX1 - (right.x - (env.rectW - margin)) else panX1
  let panY1 := if left.y < margin then s.pan.y + (margin - left.y) else s.pan.y
  let panY2 := if right.y > env.rectH - margin then panY1 - (right.y - (env.rectH - margin)) else panY1
  { s with pan := { x := panX2, y := panY2 } }

/-- The golden-angle spiral search of `addChild`: at each step place the
candidate on the circle around the parent, test `isPositionFree`, advance
the angle by `GOLDEN_ANGLE` and widen the radius by 24 every 8 steps.  The
source loop runs 96 iterations and exits with the last tried point, so the
search starts with fuel 95; `i` is the source's loop index. -/
def childSearchGo (env : Env) (s : AppState) (pid : ℕ) (px py : ℚ) :
    ℕ → ℕ → ℚ → ℚ → ℚ × ℚ
  | i, fuel, angle, radius =>
    let x := px + env.cos angle * radius
    let y := py + env.sin angle * radius
    if isPositionFree env s x y (some pid) then (x, y)
    else
      match fuel with
      | 0 => (x, y)
      | fuel + 1 =>
        childSearchGo env s pid px py (i + 1) fuel (angle + env.goldenAngle)
          (if i % 8 == 7 then radius + 24 else radius)

/-- `addChild(parentId)`: missing parent returns the argument unchanged;
otherwise push history, spiral-place the child, inherit the parent's
colors, connect an edge, and bring the child into view (the source defers
the latter by a zero-delay timeout run when the handler completes). -/
def addChild (env : Env) (parentId : ℕ) (s : AppState) : AppState × ℕ :=
  match s.nodes.find? (fun n => n.id == parentId) with
  | none => (s, parentId)
  | some parent =>
    let s1 := pushHistory s
    let newId := if s1.nodes.isEmpty then 1 else nextNodeId s1.nodes
    let angle0 : ℚ := ((getChildrenOf s1 parentId).length : ℚ) * env.goldenAngle
    let p := childSearchGo env s1 parentId parent.x parent.y 0 95 angle0 CHILD_RADIUS
    let child : MindNode :=
      { id := newId, label := "", x := p.1, y := p.2, w := BASE_W, h := BASE_H,
        strokeColor := parent.strokeColor, fillColor := parent.fillColor, bold := false }
    let s2 := { s1 with
                nodes := s1.nodes ++ [child]
                edges := s1.edges ++ [{ id := env.now, source := parentId, target := newId,
                                        label := none, dashed := none }] }
    (bringBoxIntoView env p.1 p.2 BASE_W BASE_H 24 s2, newId)

/-- The spiral search of the `at` branch of `addStandalone`: 60 tries
starting at radius 12, stepping the radius by 12 every 6 steps; on
exhaustion the node is placed at the original point. -/
def standaloneSearchGo (env : Env) (s : AppState) (cx cy : ℚ) :
    ℕ → ℕ → ℚ → ℚ → ℚ × ℚ
  | i, fuel, angle, radius =>
    let nx := cx + env.cos angle * radius
    let ny := cy + env.sin angle * radius
    if isPositionFree env s nx ny none then (nx, ny)
    else
      match fuel with
      | 0 => (cx, cy)
      | fuel + 1 =>
        standaloneSearchGo env s cx cy (i + 1) fuel (angle + env.goldenAngle)
          (if i % 6 == 5 then radius + 12 else radius)

/-- `addStandalone(at)` (the branch taking explicit world coordinates, as
used by the context menu): push history, use `at` directly when free, else
spiral-search around it. -/
def addStandaloneAt (env : Env) (at_ : Point) (s : AppState) : AppState × ℕ :=
  let s1 := pushHistory s
  let newId := if s1.nodes.isEmpty then 1 else nextNodeId s1.nodes
  let p := if isPositionFree env s1 at_.x at_.y none then (at_.x, at_.y)
           else standaloneSearchGo env s1 at_.x at_.y 0 59 0 12
  let node : MindNode :=
    { id := newId, label := "", x := p.1, y := p.2, w := BASE_W, h := BASE_H,
      strokeColor := "#333", fillColor := none, bold := false }
  let s2 := { s1 with nodes := s1.nodes ++ [node] }
  (bringBoxIntoView env p.1 p.2 BASE_W BASE_H 24 s2, newId)

/-- `removeEdges(ids)` -/
def removeEdges (ids : List ℕ) (s : AppState) : AppState :=
  if ids.isEmpty then s
  else
    let s1 := pushHistory s
    { s1 with
      edges := s1.edges.filter (fun e => ! ids.contains e.id)
      selectedEdgeIds := [] }

/-- `removeNodes(ids)`: push history; when exactly one node with a
surviving parent is removed, selection moves to the parent (and the
deferred `bringBoxIntoView` looks the parent up in the stale pre-removal
`nodes` closure, as the source does); otherwise the selection is cleared.
Node and edge removal happen in the same update. -/
def removeNodes (env : Env) (ids : List ℕ) (s : AppState) : AppState :=
  if ids.isEmpty then s
  else
    let s1 := pushHistory s
    let nextSelection : Option ℕ :=
      if ids.length == 1 then
        match ids.head? with
        | none => none
        | some victim =>
          match getParentId s1 victim with
          | some parent => if ids.contains parent then none else some parent
          | none => none
      else none
    let s2 := { s1 with
                nodes := s1.nodes.filter (fun n => ! ids.contains n.id)
                edges := s1.edges.filter
                  (fun e => ! ids.contains e.source && ! ids.contains e.target) }
    match nextSelection with
    | some nid =>
      let s3 := { s2 with selectedId := some nid, selectedIds := [nid],
                          selectedEdgeIds := [] }
      match s1.nodes.find? (fun n => n.id == nid) with
      | some n => bringBoxIntoView env n.x n.y n.w n.h 24 s3
      | none => s3
    | none => clearSelection s2

/-! ### Keyboard handlers -/

/-- `resizeNodeForLabel(n)`: recompute the node box from its label. -/
def resizeNodeForLabel (n : MindNode) : MindNode :=
  let baseFont := clamp (jsRound (n.h * (7/20))) 12 20
  let L := layoutLabel n.label baseFont BASE_W
  { n with w := L.width, h := L.height }

/-- The `Shift` + `+`/`=` branch of the keydown handler: grow the selected
nodes' boxes by the fixed factors, capped at `420 × 240`. -/
def resizePlusKey (s : AppState) : AppState :=
  let ids := s.selectedIds
  if ids.isEmpty then s
  else
    let s1 := pushHistory s
    { s1 with nodes := s1.nodes.map fun n =>
        if ids.contains n.id then
          { n with w := min 420 (jsRound (n.w * (6/5))),
                   h := min 240 (jsRound (n.h * (23/20))) }
        else n }

/-- The `Shift` + `-`/`_` branch of the keydown handler: shrink the
selected nodes' boxes by the reciprocal factors, floored at `80 × 48`. -/
def resizeMinusKey (s : AppState) : AppState :=
  let ids := s.selectedIds
  if ids.isEmpty then s
  else
    let s1 := pushHistory s
    { s1 with nodes := s1.nodes.map fun n =>
        if ids.contains n.id then
          { n with w := max 80 (jsRound (n.w / (6/5))),
                   h := max 48 (jsRound (n.h / (23/20))) }
        else n }

/-- The `Shift+Tab` branch of the keydown handler (active for a single
selected node): rebuild the remembered root path when the selection is not
on it, step the index one level toward the root (or, at the root, back
down; at the leaf, do nothing), then `selectOnly` the node at the new
index and bring it into view.  The ref writes performed before an early
return persist, exactly as in the source. -/
def shiftTabKey (env : Env) (s : AppState) : AppState :=
  match s.selectedId with
  | none => s
  | some sid =>
    if s.selectedIds.length == 1 then
      let s1 :=
        if (match s.shiftTabPath with
            | none => true
            | some p => ¬ p.contains sid) then
          let p := buildRootPath s sid
          { s with shiftTabPath := some p, shiftTabIndex := p.length - 1 }
        else s
      let path := s1.shiftTabPath.getD []
      let idx := s1.shiftTabIndex
      if idx > 0 then shiftTabStep env s1 path (idx - 1)
      else if idx < path.length - 1 then shiftTabStep env s1 path (idx + 1)
      else s1
    else s
where
  /-- Store the new index, select the node at it, bring it into view. -/
  shiftTabStep (env : Env) (s1 : AppState) (path : List ℕ) (idx : ℕ) : AppState :=
    let nextId := path.getD idx 0
    let s2 := selectOnly nextId { s1 with shiftTabIndex := idx }
    match s2.nodes.find? (fun n => n.id == nextId) with
    | some n => bringBoxIntoView env n.x n.y n.w n.h 24 s2
    | none => s2

/-- The printable-character branch of the keydown handler: append to (or,
right after a selection change, replace) the labels of the selected edges,
else of the selected nodes; node boxes are re-laid-out per keystroke. -/
def typeCharKey (ch : String) (s : AppState) : AppState :=
  if ¬ s.selectedEdgeIds.isEmpty then
    let s1 := pushHistory s
    let replaceAll := s1.freshTyping
    { s1 with
      edges := s1.edges.map fun ed =>
        if s1.selectedEdgeIds.contains ed.id then
          { ed with label := some (if replaceAll then ch else (ed.label.getD "") ++ ch) }
        else ed
      freshTyping := false }
  else if ¬ s.selectedIds.isEmpty then
    let s1 := pushHistory s
    let replaceAll := s1.freshTyping
    { s1 with
      nodes := s1.nodes.map fun n =>
        if s1.selectedIds.contains n.id then
          resizeNodeForLabel { n with label := if replaceAll then ch else n.label ++ ch }
        else n
      freshTyping := false }
  else s

/-- `label.slice(0, Math.max(0, label.length - 1))`: drop the last
character. -/
def dropLastChar (t : String) : String :=
  String.mk t.data.dropLast

/-- The plain `Backspace` branch of the keydown handler: several selected
nodes are deleted; a single selected node loses the last character of its
label and is re-laid-out. -/
def backspaceKey (env : Env) (s : AppState) : AppState :=
  let ids := s.selectedIds
  if ids.length > 1 then removeNodes env ids s
  else
    match ids.head? with
    | some id =>
      let s1 := pushHistory s
      { s1 with nodes := s1.nodes.map fun n =>
          if n.id == id then resizeNodeForLabel { n with label := dropLastChar n.label }
          else n }
    | none => s

/-- The `Hervorheben` context-menu command: toggle a node's bold flag. -/
def toggleBold (id : ℕ) (s : AppState) : AppState :=
  let s1 := pushHistory s
  { s1 with nodes := s1.nodes.map fun n =>
      if n.id = id then { n with bold := ! n.bold } else n }

/-- The shift-click linking shortcut in `onPointerDownNode`: with a
different node already selected, push history, ensure an edge to the
clicked node and select it. -/
def linkTo (env : Env) (sid id : ℕ) (s : AppState) : AppState :=
  selectOnly id (ensureEdge env sid id (pushHistory s))

/-! ### Wheel handler -/

/-- `onWheelSvg`: without shift, zoom anchored at the cursor position
`(mx, my)` (already relative to the svg rect, i.e. `clientX - rect.left`);
the zoom factor is `Math.exp(-deltaY * 0.0015)` and the new scale is
clamped to `[0.3, 3]`.  With shift, pan by the raw wheel delta. -/
def onWheelSvg (env : Env) (shiftKey : Bool) (deltaX deltaY mx my : ℚ)
    (s : AppState) : AppState :=
  if ¬ shiftKey then
    let factor := env.exp (-deltaY * (3/2000))
    let newScale := clamp (s.scale * factor) (3/10) 3
    let wx := (mx - s.pan.x) / s.scale
    let wy := (my - s.pan.y) / s.scale
    { s with pan := { x := mx - wx * newScale, y := my - wy * newScale },
             scale := newScale }
  else
    { s with pan := { x := s.pan.x - deltaX, y := s.pan.y - deltaY } }

/-! ### Persistence load

The load effect parses the stored blob and coerces the decoded `nodes` and
`edges` arrays field by field, with JS coercion semantics (`Number`,
`String`, `Boolean`, `??`, truthiness).  JS runtime values are modelled by
`JValue` (with `undefVal` for `undefined`); a JS number is `Option ℚ`, `none`
standing for `NaN`.  String-to-number parsing and the stringification of
non-primitive values are JS library behaviour, kept abstract in `JSEnv`. -/

/-- A JS runtime value as far as the loader observes it. -/
inductive JValue where
  | null
  | undefVal
  | bool (b : Bool)
  | num (v : Option ℚ)
  | str (s : String)
  | arr (elems : List JValue)
  | obj (fields : List (String × JValue))

/-- Abstract JS library behaviour used by the coercions. -/
structure JSEnv where
  parseNum : String → Option ℚ
  showOther : JValue → String

/-- First-match property lookup on an object literal. -/
def lookupPairs : List (String × JValue) → String → Option JValue
  | [], _ => none
  | (k, v) :: rest, key => if k = key then some v else lookupPairs rest key

/-- Property access `v[key]` for non-nullish `v`: a miss (and any access on
a primitive or array) yields `undefined`, here `none`. -/
def lookupField : JValue → String → Option JValue
  | .obj fields, key => lookupPairs fields key
  | _, _ => none

/-- Property access with the JS `undefined` made explicit. -/
def fieldVal (v : JValue) (key : String) : JValue :=
  (lookupField v key).getD .undefVal

/-- Optional chaining `v?.[key]`: `null`/`undefined` receivers yield
`undefined` instead of throwing. -/
def chainField (v : JValue) (key : String) : JValue :=
  match v with
  | .null => .undefVal
  | .undefVal => .undefVal
  | _ => fieldVal v key

/-- The nullish-coalescing operator `x ?? d`. -/
def nullish (o : Option JValue) (d : JValue) : JValue :=
  match o with
  | none => d
  | some .null => d
  | some .undefVal => d
  | some v => v

/-- JS truthiness, which is also `Boolean(x)`. -/
def jsTruthy : JValue → Bool
  | .null => false
  | .undefVal => false
  | .bool b => b
  | .num none => false
  | .num (some q) => q != 0
  | .str t => t != ""
  | .arr _ => true
  | .obj _ => true

/-- `Number(x)`; `none` is `NaN`. -/
def jsToNumber (env : JSEnv) : JValue → Option ℚ
  | .null => some 0
  | .undefVal => none
  | .bool b => some (if b then 1 else 0)
  | .num v => v
  | .str t => env.parseNum t
  | .arr [] => some 0
  | .arr [x] => jsToNumber env x
  | .arr (_ :: _ :: _) => none
  | .obj _ => none

/-- `String(x)`. -/
def jsToString (env : JSEnv) : JValue → String
  | .str t => t
  | .null => "null"
  | .undefVal => "undefined"
  | .bool b => if b then "true" else "false"
  | v => env.showOther v

/-- `Array.isArray` -/
def isArray : JValue → Bool
  | .arr _ => true
  | _ => false

/-- A migrated node exactly as the load coercions produce it: numeric
fields are JS numbers (possibly `NaN`), `strokeColor` keeps the raw stored
value when present. -/
structure MigNode where
  id : Option ℚ
  label : String
  x : Option ℚ
  y : Option ℚ
  w : Option ℚ
  h : Option ℚ
  strokeColor : JValue
  fillColor : Option JValue
  bold : Bool

/-- A migrated edge, see `MigNode`. -/
structure MigEdge where
  id : Option ℚ
  source : Option ℚ
  target : Option ℚ
  label : Option String
  dashed : Bool

/-- The node coercion of the persistence load, for a non-nullish array
element (property access on `null`/`undefined` throws and is handled in
`migrateNode`). -/
def migrateNodeCore (env : JSEnv) (v : JValue) : MigNode :=
  { id := jsToNumber env (fieldVal v "id")
    label := jsToString env (nullish (lookupField v "label") (.str ""))
    x := jsToNumber env (fieldVal v "x")
    y := jsToNumber env (fieldVal v "y")
    w := jsToNumber env (nullish (lookupField v "w") (.num (some BASE_W)))
    h := jsToNumber env (nullish (lookupField v "h") (.num (some BASE_H)))
    strokeColor := nullish (lookupField v "strokeColor") (.str "#333")
    fillColor := lookupField v "fillColor"
    bold := jsTruthy (fieldVal v "bold") }

/-- The node coercion including the exception a nullish element raises. -/
def migrateNode (env : JSEnv) (v : JValue) : Except Unit MigNode :=
  match v with
  | .null => .error ()
  | .undefVal => .error ()
  | _ => .ok (migrateNodeCore env v)

/-- The edge coercion, for a non-nullish element. -/
def migrateEdgeCore (env : JSEnv) (v : JValue) : MigEdge :=
  { id := jsToNumber env (fieldVal v "id")
    source := jsToNumber env (fieldVal v "source")
    target := jsToNumber env (fieldVal v "target")
    label := if jsTruthy (fieldVal v "label")
             then some (jsToString env (fieldVal v "label")) else none
    dashed := jsTruthy (fieldVal v "dashed") }

/-- The edge coercion including the exception a nullish element raises. -/
def migrateEdge (env : JSEnv) (v : JValue) : Except Unit MigEdge :=
  match v with
  | .null => .error ()
  | .undefVal => .error ()
  | _ => .ok (migrateEdgeCore env v)

/-- The persistence-load effect.  `raw = none` covers both a missing
stored blob and a `JSON.parse` failure; otherwise `data` is the parsed
value.  When `data?.nodes` and `data?.edges` are both arrays and every
element migrates without throwing, both collections are replaced,
otherwise (`catch {}`) the in-memory state is left untouched. -/
def loadPersisted (env : JSEnv) (raw : Option JValue)
    (st : List MigNode × List MigEdge) : List MigNode × List MigEdge :=
  match raw with
  | none => st
  | some data =>
    match chainField data "nodes" with
    | .arr ns =>
      match chainField data "edges" with
      | .arr es =>
        match ns.mapM (migrateNode env), es.mapM (migrateEdge env) with
        | .ok mns, .ok mes => (mns, mes)
        | .ok _, .error _ => st
        | .error _, _ => st
      | _ => st
    | _ => st

/-! ### The history-wrapped mutating operations

`MutOp` enumerates the mutating operations considered for the undo/redo
claim, each mirroring one history-pushing code path; `opGuard` is the
operation's own early-return guard, i.e. the condition under which the
source path reaches its `pushHistory()` call. -/

/-- A single mutating operation. -/
inductive MutOp where
  | removeNodesOp (ids : List ℕ)
  | removeEdgesOp (ids : List ℕ)
  | addChildOp (parentId : ℕ)
  | addStandaloneAtOp (at_ : Point)
  | resizePlusOp
  | resizeMinusOp
  | typeCharOp (ch : String)
  | backspaceOp
  | toggleBoldOp (id : ℕ)
  | linkToOp (id : ℕ)

/-- Apply a mutating operation to the state. -/
def applyOp (env : Env) : MutOp → AppState → AppState
  | .removeNodesOp ids, s => removeNodes env ids s
  | .removeEdgesOp ids, s => removeEdges ids s
  | .addChildOp pid, s => (addChild env pid s).1
  | .addStandaloneAtOp p, s => (addStandaloneAt env p s).1
  | .resizePlusOp, s => resizePlusKey s
  | .resizeMinusOp, s => resizeMinusKey s
  | .typeCharOp ch, s => typeCharKey ch s
  | .backspaceOp, s => backspaceKey env s
  | .toggleBoldOp id, s => toggleBold id s
  | .linkToOp id, s => match s.selectedId with
    | some sid => if sid ≠ id then linkTo env sid id s else s
    | none => s

/-- The guard under which the operation's code path pushes history. -/
def opGuard (s : AppState) : MutOp → Bool
  | .removeNodesOp ids => ¬ ids.isEmpty
  | .removeEdgesOp ids => ¬ ids.isEmpty
  | .addChildOp pid => (s.nodes.find? (fun n => n.id == pid)).isSome
  | .addStandaloneAtOp _ => true
  | .resizePlusOp => ¬ s.selectedIds.isEmpty
  | .resizeMinusOp => ¬ s.selectedIds.isEmpty
  | .typeCharOp _ => ¬ s.selectedEdgeIds.isEmpty || ¬ s.selectedIds.isEmpty
  | .backspaceOp => ¬ s.selectedIds.isEmpty
  | .toggleBoldOp _ => true
  | .linkToOp id => match s.selectedId with
    | some sid => sid ≠ id
    | none => false

/-! ## Shared lemmas -/

/-- The wrap/retry loop never shrinks the working width. -/
lemma layoutLoop_width_mono (words : List String) (label : String) (baseFont : ℚ) :
    ∀ (fuel : ℕ) (width : ℚ), width ≤ (layoutLoop words label baseFont fuel width).2 := by
  intro fuel
  induction fuel with
  | zero =>
    intro width
    simp only [layoutLoop]
    split
    · exact le_refl _
    · exact le_max_left _ _
  | succ fuel ih =>
    intro width
    simp only [layoutLoop]
    split
    · exact le_refl _
    · exact le_trans (le_max_left _ _) (ih (growWidth words baseFont width))

/-- Every element of a list is bounded by the `foldr max 0` of its image. -/
lemma le_foldr_max (g : String → ℚ) :
    ∀ (l : List String) (x : String), x ∈ l → g x ≤ (l.map g).foldr max 0 := by
  intro l
  induction l with
  | nil => intro x hx; cases hx
  | cons a l ih =>
    intro x hx
    rcases List.mem_cons.mp hx with h | h
    · subst h; exact le_max_left _ _
    · exact le_trans (ih x h) (le_max_right _ _)

/-- The greedy wrap produces at most one line per input word (plus the
pending accumulator). -/
lemma wrapGo_length_le (baseFont width : ℚ) :
    ∀ (ws : List String) (cur : String),
      (wrapGo baseFont width ws cur).length ≤ ws.length + (if cur = "" then 0 else 1) := by
  intro ws
  induction ws with
  | nil =>
    intro cur
    simp only [wrapGo]
    split <;> simp
  | cons w rest ih =>
    intro cur
    simp only [wrapGo, List.length_cons]
    split
    · have h := ih w
      split at h <;> omega
    · split
      · have h := ih (cur ++ " " ++ w)
        split at h <;> omega
      · simp only [List.length_cons]
        have h := ih w
        split at h <;> omega

/-- The lines returned by the wrap/retry loop always come from a single
wrapping pass at some width. -/
lemma layoutLoop_lines_is_build (words : List String) (label : String) (baseFont : ℚ) :
    ∀ (fuel : ℕ) (width : ℚ),
      ∃ w, (layoutLoop words label baseFont fuel width).1 = buildLines words label baseFont w := by
  intro fuel
  induction fuel with
  | zero =>
    intro width
    simp only [layoutLoop]
    split <;> exact ⟨width, rfl⟩
  | succ fuel ih =>
    intro width
    simp only [layoutLoop]
    split
    · exact ⟨width, rfl⟩
    · exact ih (growWidth words baseFont width)

/-! ## C6: layoutLabel respects the base dimensions -/

/-- C6: for every label text, font size and minimum width, the laid-out
box satisfies `height ≥ baseHeight (64)` and
`width ≥ max(minWidth, baseWidth (120))`. -/
theorem layoutLabel_min_dims (label : String) (baseFont minW : ℚ) :
    64 ≤ (layoutLabel label baseFont minW).height ∧
    max minW 120 ≤ (layoutLabel label baseFont minW).width := by
  constructor
  · have : (64 : ℚ) ≤ max BASE_H (jsCeil
        (((layoutLoop (splitWords label) label baseFont 5 (max minW BASE_W)).1.length : ℚ) *
          jsRound (baseFont * (23/20)) + 12 * 2)) := by
      refine le_trans (le_of_eq ?_) (le_max_left _ _)
      norm_num [BASE_H]
    exact this
  · have h1 : max minW 120 ≤ (layoutLoop (splitWords label) label baseFont 5 (max minW BASE_W)).2 := by
      refine le_trans (le_of_eq ?_) (layoutLoop_width_mono _ _ _ 5 (max minW BASE_W))
      norm_num [BASE_W]
    exact le_trans h1 (le_max_left _ _)

/-! ## C5: the wrapping contract of layoutLabel -/

/-- C5 (counterexample): the claim that `layoutLabel` always returns at
most 3 lines is false: four ten-character words at font size 20 wrap to
four one-word lines, the recomputed width never grows past its first
enlargement, and after the capped 6 passes the result keeps 4 lines. -/
theorem layoutLabel_exceeds_three_lines :
    ¬ (layoutLabel "aaaaaaaaaa bbbbbbbbbb cccccccccc dddddddddd" 20 120).lines.length ≤ 3 := by
  with_unfolding_all decide

/-- C5 (amended): every produced line fits in `width - 2*paddingX`; the
retry is capped at 6 wrapping passes (by definition of the loop), and the
line count is at most 3 whenever the text has at most 3 words — but when
the capped retry fails to converge the result may keep more than 3
lines. -/
theorem layoutLabel_fit_and_bounded (label : String) (baseFont minW : ℚ) :
    (∀ l ∈ (layoutLabel label baseFont minW).lines,
        approxTextWidth l baseFont ≤ (layoutLabel label baseFont minW).width - 2 * 16) ∧
    ((splitWords label).length ≤ 3 → (layoutLabel label baseFont minW).lines.length ≤ 3) := by
  constructor
  · intro l hl
    have hwidth : max minW 120 ≤ (layoutLabel label baseFont minW).width :=
      (layoutLabel_min_dims label baseFont minW).2
    simp only [layoutLabel] at hl ⊢
    by_cases hempty :
        (layoutLoop (splitWords label) label baseFont 5 (max minW BASE_W)).1.isEmpty
    · rw [if_pos hempty] at hl
      rcases List.mem_singleton.mp hl with rfl
      have : approxTextWidth "" baseFont = 0 := by
        simp [approxTextWidth]
      rw [this]
      simp only [layoutLabel] at hwidth
      have h120 : (120 : ℚ) ≤ max minW 120 := le_max_right _ _
      linarith
    · rw [if_neg hempty] at hl
      have hle : approxTextWidth l baseFont ≤
          ((layoutLoop (splitWords label) label baseFont 5 (max minW BASE_W)).1.map
            (fun t => approxTextWidth t baseFont)).foldr max 0 :=
        le_foldr_max _ _ _ hl
      set textW := ((layoutLoop (splitWords label) label baseFont 5 (max minW BASE_W)).1.map
            (fun t => approxTextWidth t baseFont)).foldr max 0 with htextW
      have hceil : textW + 16 * 2 ≤ jsCeil (textW + 16 * 2) := by
        exact_mod_cast Int.le_ceil (textW + 16 * 2)
      have hmax : jsCeil (textW + 16 * 2) ≤
          max (layoutLoop (splitWords label) label baseFont 5 (max minW BASE_W)).2
            (jsCeil (textW + 16 * 2)) := le_max_right _ _
      linarith
  · intro hwords
    have hbuild : ∀ w : ℚ, (buildLines (splitWords label) label baseFont w).length ≤ 3 := by
      intro w
      unfold buildLines
      by_cases h : (splitWords label).isEmpty
      · rw [if_pos h]
        have := wrapGo_length_le baseFont w [label] ""
        simp at this
        omega
      · rw [if_neg h]
        have := wrapGo_length_le baseFont w (splitWords label) ""
        simp at this
        omega
    obtain ⟨w, hw⟩ := layoutLoop_lines_is_build (splitWords label) label baseFont 5 (max minW BASE_W)
    simp only [layoutLabel]
    split
    · simp
    · rw [hw]; exact hbuild w

/-! ## C7: wheel zoom keeps the cursor's world point pinned -/

/-- C7: for a no-shift wheel zoom at cursor position `(mx, my)`, the world
point that was under the cursor before the zoom maps back to `(mx, my)`
under the new pan and scale, and the new scale is the clamped product of
the old scale and the wheel factor. -/
theorem wheel_zoom_pinpoint (env : Env) (deltaX deltaY mx my : ℚ) (s : AppState) :
    (onWheelSvg env false deltaX deltaY mx my s).pan.x
        + ((mx - s.pan.x) / s.scale) * (onWheelSvg env false deltaX deltaY mx my s).scale = mx ∧
    (onWheelSvg env false deltaX deltaY mx my s).pan.y
        + ((my - s.pan.y) / s.scale) * (onWheelSvg env false deltaX deltaY mx my s).scale = my ∧
    (onWheelSvg env false deltaX deltaY mx my s).scale
        = clamp (s.scale * env.exp (-deltaY * (3/2000))) (3/10) 3 := by
  refine ⟨?_, ?_, ?_⟩ <;> simp [onWheelSvg]

/-! ## C10: addChild with an unknown parent is a strict no-op -/

/-- C10: when `parentId` resolves to no node, `addChild` returns
`parentId` and the whole state — nodes, edges, selection, and both history
stacks — is unchanged. -/
theorem addChild_missing_parent (env : Env) (parentId : ℕ) (s : AppState)
    (h : s.nodes.find? (fun n => n.id == parentId) = none) :
    addChild env parentId s = (s, parentId) := by
  unfold addChild
  rw [h]

/-! ## C2: removeNodes atomically purges incident edges -/

/-- The edge collection after `removeNodes`: untouched on the empty-ids
no-op, otherwise filtered in the same update that removes the nodes. -/
lemma removeNodes_edges (env : Env) (ids : List ℕ) (s : AppState) :
    (removeNodes env ids s).edges =
      if ids.isEmpty then s.edges
      else s.edges.filter (fun e => ! ids.contains e.source && ! ids.contains e.target) := by
  unfold removeNodes
  split
  · rfl
  · dsimp only
    repeat' split
    all_goals rfl

/-- The node collection after `removeNodes`. -/
lemma removeNodes_nodes (env : Env) (ids : List ℕ) (s : AppState) :
    (removeNodes env ids s).nodes =
      if ids.isEmpty then s.nodes
      else s.nodes.filter (fun n => ! ids.contains n.id) := by
  unfold removeNodes
  split
  · rfl
  · dsimp only
    repeat' split
    all_goals rfl

/-- C2: after `removeNodes(ids)` no edge in the store has a source or a
target in `ids`; nodes and incident edges are removed in the same
operation (`removeNodes_nodes` and `removeNodes_edges` exhibit the common
update). -/
theorem removeNodes_purges_edges (env : Env) (ids : List ℕ) (s : AppState) :
    ∀ e ∈ (removeNodes env ids s).edges,
      ids.contains e.source = false ∧ ids.contains e.target = false := by
  intro e he
  rw [removeNodes_edges] at he
  by_cases h : ids.isEmpty
  · have : ids = [] := List.isEmpty_iff.mp h
    subst this
    simp [List.contains]
  · rw [if_neg h] at he
    have hp := List.of_mem_filter he
    simp only [Bool.and_eq_true, Bool.not_eq_true'] at hp
    exact hp

/-! ## C3: ensureEdge and the unordered-pair invariant -/

/-- `pairExists` ignores the argument order. -/
lemma pairExists_symm (edges : List Link) (a b : ℕ) :
    pairExists edges a b = pairExists edges b a := by
  unfold pairExists
  induction edges with
  | nil => rfl
  | cons e rest ih =>
    simp only [List.any_cons, ih]
    cases h1 : (e.source == b && e.target == a) <;>
      cases h2 : (e.source == a && e.target == b) <;> simp [h1, h2]

/-- Appending an edge extends `pairExists` pointwise. -/
lemma pairExists_append (edges : List Link) (e : Link) (a b : ℕ) :
    pairExists (edges ++ [e]) a b =
      (pairExists edges a b ||
        ((e.source == a && e.target == b) || (e.source == b && e.target == a))) := by
  simp [pairExists]

/-- The number of edges joining the unordered pair. -/
def countPair (edges : List Link) (a b : ℕ) : ℕ :=
  (edges.filter fun ed => (ed.source == a && ed.target == b) ||
                          (ed.source == b && ed.target == a)).length

/-- `countPair` is zero exactly when `pairExists` is false. -/
lemma countPair_eq_zero (edges : List Link) (a b : ℕ) :
    countPair edges a b = 0 ↔ pairExists edges a b = false := by
  unfold countPair pairExists
  induction edges with
  | nil => simp
  | cons e rest ih =>
    by_cases h : ((e.source == a && e.target == b) || (e.source == b && e.target == a)) = true
    · simp [List.filter_cons, List.any_cons, h]
    · simp only [Bool.not_eq_true] at h
      simp [List.filter_cons, List.any_cons, h, ih]

/-- C3: `ensureEdge(a, b)` is a no-op when `a = b` or when an edge already
joins the unordered pair; otherwise it appends exactly one fresh edge.  A
second call, in either argument order and at any later clock, is a no-op,
so two calls never yield two edges between the same unordered pair: when
none existed, exactly one exists afterwards. -/
theorem ensureEdge_spec (env env2 : Env) (a b : ℕ) (s : AppState) :
    (a = b → ensureEdge env a b s = s) ∧
    (pairExists s.edges a b = true → ensureEdge env a b s = s) ∧
    (a ≠ b → pairExists s.edges a b = false →
      (ensureEdge env a b s).edges = s.edges ++
        [{ id := env.now, source := a, target := b, label := none, dashed := none }]) ∧
    (ensureEdge env2 a b (ensureEdge env a b s) = ensureEdge env a b s) ∧
    (ensureEdge env2 b a (ensureEdge env a b s) = ensureEdge env a b s) ∧
    (a ≠ b → countPair s.edges a b = 0 →
      countPair (ensureEdge env2 a b (ensureEdge env a b s)).edges a b = 1) := by
  by_cases hab : a = b
  · subst hab
    refine ⟨fun _ => ?_, fun _ => ?_, fun h => absurd rfl h, ?_, ?_, fun h => absurd rfl h⟩ <;>
      simp [ensureEdge]
  · have hab' : (a == b) = false := by simpa using hab
    have hba' : (b == a) = false := by simpa using (Ne.symm hab)
    by_cases hex : pairExists s.edges a b = true
    · have h1 : ensureEdge env a b s = s := by
        simp [ensureEdge, hab', hex]
      refine ⟨?_, ?_, ?_, ?_, ?_, ?_⟩
      · intro h
        exact absurd h hab
      · intro _
        exact h1
      · intro _ h
        rw [h] at hex
        cases hex
      · rw [h1]
        simp [ensureEdge, hab', hex]
      · rw [h1]
        have : pairExists s.edges b a = true := by rw [← pairExists_symm]; exact hex
        simp [ensureEdge, hba', this]
      · intro _ h
        rw [(countPair_eq_zero s.edges a b).mp h] at hex
        cases hex
    · have hexf : pairExists s.edges a b = false := by
        cases h : pairExists s.edges a b
        · rfl
        · exact absurd h hex
      have h1 : ensureEdge env a b s =
          { s with edges := s.edges ++
            [{ id := env.now, source := a, target := b, label := none, dashed := none }] } := by
        simp [ensureEdge, hab', hexf]
      have hnew : pairExists (ensureEdge env a b s).edges a b = true := by
        rw [h1]
        simp [pairExists_append, hexf]
      refine ⟨?_, ?_, ?_, ?_, ?_, ?_⟩
      · intro h
        exact absurd h hab
      · intro h
        rw [h] at hexf
        cases hexf
      · intro _ _
        rw [h1]
      · set t := ensureEdge env a b s with ht
        simp [ensureEdge, hab', hnew]
      · have hnew' : pairExists (ensureEdge env a b s).edges b a = true := by
          rw [← pairExists_symm]; exact hnew
        set t := ensureEdge env a b s with ht
        simp [ensureEdge, hba', hnew']
      · intro _ hc
        have h2 : ensureEdge env2 a b (ensureEdge env a b s) = ensureEdge env a b s := by
          set t := ensureEdge env a b s with ht
          simp [ensureEdge, hab', hnew]
        rw [h2, h1]
        unfold countPair
        have hc0 : (s.edges.filter fun ed => (ed.source == a && ed.target == b) ||
            (ed.source == b && ed.target == a)).length = 0 := hc
        simp [List.filter_append, hc0]

/-! ## C1: undo and redo are exact inverses around every mutating operation -/

/-- `ensureEdge` never touches the history stacks. -/
lemma ensureEdge_undoStack (env : Env) (a b : ℕ) (s : AppState) :
    (ensureEdge env a b s).undoStack = s.undoStack := by
  unfold ensureEdge
  repeat' split
  all_goals rfl

/-- `removeNodes` on a nonempty id list pushes exactly the pre-state
snapshot. -/
lemma removeNodes_undoStack (env : Env) (ids : List ℕ) (s : AppState)
    (h : ids.isEmpty = false) :
    (removeNodes env ids s).undoStack = snapshot s :: s.undoStack := by
  unfold removeNodes
  rw [if_neg (by simp [h])]
  dsimp only
  repeat' split
  all_goals rfl

/-- Every guarded mutating operation pushes exactly the pre-state snapshot
onto the undo stack (and nothing later in the operation touches it). -/
lemma applyOp_undoStack (env : Env) (op : MutOp) (s : AppState)
    (h : opGuard s op = true) :
    (applyOp env op s).undoStack = snapshot s :: s.undoStack := by
  cases op with
  | removeNodesOp ids =>
    have h' : ids.isEmpty = false := by simpa [opGuard] using h
    exact removeNodes_undoStack env ids s h'
  | removeEdgesOp ids =>
    have h' : ids.isEmpty = false := by simpa [opGuard] using h
    simp only [applyOp, removeEdges, h']
    rfl
  | addChildOp pid =>
    rcases hfind : s.nodes.find? (fun n => n.id == pid) with _ | parent
    · simp [opGuard, hfind] at h
    · simp only [applyOp, addChild, hfind]
      rfl
  | addStandaloneAtOp p =>
    simp only [applyOp, addStandaloneAt]
    repeat' split
    all_goals rfl
  | resizePlusOp =>
    have h' : s.selectedIds.isEmpty = false := by simpa [opGuard] using h
    simp only [applyOp, resizePlusKey, h']
    rfl
  | resizeMinusOp =>
    have h' : s.selectedIds.isEmpty = false := by simpa [opGuard] using h
    simp only [applyOp, resizeMinusKey, h']
    rfl
  | typeCharOp ch =>
    simp only [applyOp, typeCharKey]
    rcases he : s.selectedEdgeIds.isEmpty with _ | _
    · rw [if_pos (by simp [he])]
      rfl
    · rw [if_neg (by simp [he])]
      have h' : s.selectedIds.isEmpty = false := by
        simp only [opGuard, he] at h
        simpa using h
      rw [if_pos (by simp [h'])]
      rfl
  | backspaceOp =>
    have h' : s.selectedIds.isEmpty = false := by simpa [opGuard] using h
    simp only [applyOp, backspaceKey]
    rcases hlen : s.selectedIds with _ | ⟨x, rest⟩
    · rw [hlen] at h'
      cases h'
    · by_cases hgt : (x :: rest).length > 1
      · rw [if_pos hgt]
        exact removeNodes_undoStack env _ s (by simp)
      · rw [if_neg hgt]
        rfl
  | toggleBoldOp id =>
    simp only [applyOp, toggleBold]
    rfl
  | linkToOp id =>
    rcases hsel : s.selectedId with _ | sid
    · simp [opGuard, hsel] at h
    · have hne : sid ≠ id := by
        simpa [opGuard, hsel] using h
      simp only [applyOp, hsel, if_pos hne, linkTo, selectOnly]
      rw [ensureEdge_undoStack]
      rfl

/-- Popping a pushed snapshot restores it exactly, and redo right after
undo restores the state at the moment of undo. -/
lemma undo_redo_of_push (t : AppState) (σ : Snapshot) (rest : List Snapshot)
    (h : t.undoStack = σ :: rest) :
    snapshot (undo t) = σ ∧ snapshot (redo (undo t)) = snapshot t := by
  have h1 : undo t =
      restore { t with undoStack := rest, redoStack := snapshot t :: t.redoStack } σ := by
    unfold undo
    split
    · rename_i heq
      rw [heq] at h
      cases h
    · rename_i σ' rest' heq
      rw [heq] at h
      injection h with h2 h3
      subst h2
      subst h3
      rfl
  constructor
  · rw [h1]
    rfl
  · rw [h1]
    rfl

/-- C1: for every mutating operation whose guard passes, `undo()` right
after the operation restores the exact pre-operation nodes, edges, pan,
scale and selection, and `redo()` right after that `undo()` restores the
exact post-operation state — deep equality of the full snapshots. -/
theorem undo_redo_exact_inverses (env : Env) (op : MutOp) (s : AppState)
    (h : opGuard s op = true) :
    snapshot (undo (applyOp env op s)) = snapshot s ∧
    snapshot (redo (undo (applyOp env op s))) = snapshot (applyOp env op s) :=
  undo_redo_of_push (applyOp env op s) (snapshot s) s.undoStack
    (applyOp_undoStack env op s h)

/-! ## Concrete example data -/

/-- A concrete environment for evaluations; the abstract `Env` fields get
arbitrary computable values (no verified property depends on them). -/
def exEnv : Env :=
  { now := 1000
    cos := fun _ => 1
    sin := fun _ => 0
    hypot := fun a b => |a| + |b|
    exp := fun _ => 1
    goldenAngle := 2
    rectW := 800
    rectH := 600 }

/-- The app's initial node. -/
def initialNode : MindNode :=
  { id := 1, label := "Type to change Text", x := 0, y := 0, w := BASE_W, h := BASE_H,
    strokeColor := "#333", fillColor := none, bold := false }

/-- A second node, as a child of the initial node would be placed. -/
def childNode : MindNode :=
  { id := 2, label := "", x := 160, y := 0, w := BASE_W, h := BASE_H,
    strokeColor := "#333", fillColor := none, bold := false }

/-- A third node, detached from the others. -/
def looseNode : MindNode :=
  { id := 3, label := "", x := -300, y := 200, w := BASE_W, h := BASE_H,
    strokeColor := "#333", fillColor := none, bold := false }

/-- The edge from node 1 to node 2. -/
def edge12 : Link :=
  { id := 500, source := 1, target := 2, label := none, dashed := none }

/-- The app's initial state (one node, centered viewport, node selected). -/
def exState : AppState :=
  { nodes := [initialNode]
    edges := []
    pan := { x := 400, y := 300 }
    scale := 1
    selectedId := some 1
    selectedIds := [1]
    selectedEdgeIds := []
    undoStack := []
    redoStack := []
    shiftTabPath := none
    shiftTabIndex := 0
    freshTyping := true }

/-- A state with the root path `[1, 2]` and node 2 selected. -/
def twoNodeState : AppState :=
  { exState with
    nodes := [initialNode, childNode]
    edges := [edge12]
    selectedId := some 2
    selectedIds := [2] }

/-- A three-node state (nodes 1, 2, 3; edge only between 1 and 2). -/
def threeNodeState : AppState :=
  { twoNodeState with nodes := [initialNode, childNode, looseNode] }

/-! ## C4: the Shift+Tab walk back down never happens -/

/-- C4: with path `[1, 2]` and node 2 selected, the first Shift+Tab
selects the parent `{1}` as claimed, but the second Shift+Tab does not
walk back down to `{2}`: it is a no-op that leaves `{1}` selected, because
`selectOnly` resets the remembered-path refs at the end of every Shift+Tab
step, so the next press rebuilds the path from the current root selection
as `[1]` and stops.  This contradicts the handler's own comments
(`App.tsx` lines 800–802: at the root, walk the same path back down to the
leaf) and the spec. -/
theorem shiftTab_no_walk_back_down :
    (shiftTabKey exEnv twoNodeState).selectedIds = [1] ∧
    (shiftTabKey exEnv twoNodeState).shiftTabPath = none ∧
    (shiftTabKey exEnv (shiftTabKey exEnv twoNodeState)).selectedIds = [1] ∧
    ((shiftTabKey exEnv (shiftTabKey exEnv twoNodeState)).selectedIds = [2] → False) := by
  with_unfolding_all decide

/-! ## C8: the Shift plus/minus resize keys and their one-sided clamps -/

/-- `jsRound` bounds used for the resize claim. -/
lemma jsRound_bounds (q : ℚ) : q - 1/2 < jsRound q ∧ jsRound q ≤ q + 1/2 := by
  unfold jsRound
  constructor
  · have := Int.sub_one_lt_floor (q + 1/2)
    push_cast at this ⊢
    linarith
  · have := Int.floor_le (q + 1/2)
    push_cast at this ⊢
    linarith

/-- A node widened by the label layout itself: re-laying-out the initial
node with an 80-character label yields a box of `992 × 64`, a state the
editor reaches by ordinary typing. -/
def wideNode : MindNode :=
  resizeNodeForLabel { initialNode with label := String.mk (List.replicate 80 'a') }

/-- The initial state with the wide node (id 1, still selected). -/
def wideState : AppState :=
  { exState with nodes := [wideNode] }

set_option maxRecDepth 8000 in
/-- C8 (counterexample): the claim that the resized dimensions are clamped
to `[80,420] × [48,240]` in both directions is false.  `wideNode` has the
layout-produced width 992; Shift `-` sets its width to
`max(80, round(992 / 1.2)) = 827`, outside `[80,420]`, because the code
clamps only the bound the scaling approaches. -/
theorem resize_minus_escapes_clamp_box :
    (resizeMinusKey wideState).nodes.map (fun n => n.w) = [827] ∧
    ¬ (∀ n ∈ (resizeMinusKey wideState).nodes, 80 ≤ n.w ∧ n.w ≤ 420) := by
  with_unfolding_all decide

/-- C8 (amended): for every node in the current selection, Shift `+` sets
the box to `(min(420, round(w*1.2)), min(240, round(h*1.15)))` and Shift
`-` to `(max(80, round(w/1.2)), max(48, round(h/1.15)))` — each direction
clamps only at the bound it approaches; consequently a selected node whose
box already lies in `[80,420] × [48,240]` stays inside that box under both
keys, while a node outside it need not be clamped back in (see the
counterexample). -/
theorem resize_keys_clamped (s : AppState) (n : MindNode)
    (hmem : n ∈ s.nodes) (hsel : s.selectedIds.contains n.id = true) :
    ({ n with w := min 420 (jsRound (n.w * (6/5))),
              h := min 240 (jsRound (n.h * (23/20))) } ∈ (resizePlusKey s).nodes) ∧
    ({ n with w := max 80 (jsRound (n.w / (6/5))),
              h := max 48 (jsRound (n.h / (23/20))) } ∈ (resizeMinusKey s).nodes) ∧
    (80 ≤ n.w → n.w ≤ 420 → 48 ≤ n.h → n.h ≤ 240 →
      (80 ≤ min 420 (jsRound (n.w * (6/5))) ∧ min 420 (jsRound (n.w * (6/5))) ≤ 420 ∧
       48 ≤ min 240 (jsRound (n.h * (23/20))) ∧ min 240 (jsRound (n.h * (23/20))) ≤ 240) ∧
      (80 ≤ max 80 (jsRound (n.w / (6/5))) ∧ max 80 (jsRound (n.w / (6/5))) ≤ 420 ∧
       48 ≤ max 48 (jsRound (n.h / (23/20))) ∧ max 48 (jsRound (n.h / (23/20))) ≤ 240)) := by
  have hne : s.selectedIds.isEmpty = false := by
    cases hids : s.selectedIds
    · rw [hids] at hsel
      simp [List.contains] at hsel
    · simp [hids]
  refine ⟨?_, ?_, ?_⟩
  · unfold resizePlusKey
    rw [if_neg (by simp [hne])]
    dsimp only
    refine List.mem_map.mpr ⟨n, hmem, ?_⟩
    rw [if_pos hsel]
  · unfold resizeMinusKey
    rw [if_neg (by simp [hne])]
    dsimp only
    refine List.mem_map.mpr ⟨n, hmem, ?_⟩
    rw [if_pos hsel]
  · intro hw1 hw2 hh1 hh2
    refine ⟨⟨?_, min_le_left _ _, ?_, min_le_left _ _⟩,
            ⟨le_max_left _ _, ?_, le_max_left _ _, ?_⟩⟩
    · have h := (jsRound_bounds (n.w * (6/5))).1
      have : (80 : ℚ) ≤ jsRound (n.w * (6/5)) := by linarith
      exact le_min (by norm_num) this
    · have h := (jsRound_bounds (n.h * (23/20))).1
      have : (48 : ℚ) ≤ jsRound (n.h * (23/20)) := by linarith
      exact le_min (by norm_num) this
    · have hdiv : n.w / (6/5) = n.w * (5/6) := by ring
      have h := (jsRound_bounds (n.w / (6/5))).2
      rw [hdiv] at h
      have : jsRound (n.w * (5/6)) ≤ 420 := by linarith
      rw [hdiv]
      exact max_le (by norm_num) this
    · have hdiv : n.h / (23/20) = n.h * (20/23) := by ring
      have h := (jsRound_bounds (n.h / (23/20))).2
      rw [hdiv] at h
      have : jsRound (n.h * (20/23)) ≤ 240 := by nlinarith
      rw [hdiv]
      exact max_le (by norm_num) this

/-! ## C9: persistence loading never fails and applies the defaults -/

/-- C9: the persistence load is total: a missing or unparsable blob, and a
parsed blob whose `nodes` or `edges` is not an array, leave the in-memory
state unchanged; when the blob is well-structured, each migrated element
coerces every field with the documented defaults: missing `label` becomes
`""`, missing `w`/`h` become the base dimensions `120`/`64`, missing
`strokeColor` becomes the neutral dark gray `"#333"`, and missing
`bold`/`dashed` become `false`. -/
theorem load_persisted_safe (env : JSEnv) (st : List MigNode × List MigEdge) :
    (loadPersisted env none st = st) ∧
    (∀ data, isArray (chainField data "nodes") = false →
      loadPersisted env (some data) st = st) ∧
    (∀ data, isArray (chainField data "edges") = false →
      loadPersisted env (some data) st = st) ∧
    (∀ v, lookupField v "label" = none → (migrateNodeCore env v).label = "") ∧
    (∀ v, lookupField v "w" = none → (migrateNodeCore env v).w = some 120) ∧
    (∀ v, lookupField v "h" = none → (migrateNodeCore env v).h = some 64) ∧
    (∀ v, lookupField v "strokeColor" = none →
      (migrateNodeCore env v).strokeColor = JValue.str "#333") ∧
    (∀ v, lookupField v "bold" = none → (migrateNodeCore env v).bold = false) ∧
    (∀ v, lookupField v "dashed" = none → (migrateEdgeCore env v).dashed = false) := by
  refine ⟨rfl, ?_, ?_, ?_, ?_, ?_, ?_, ?_, ?_⟩
  · intro data h
    rcases hn : chainField data "nodes" with _ | _ | b | q | t | xs | fs
    case arr =>
      rw [hn] at h
      simp [isArray] at h
    all_goals simp [loadPersisted, hn]
  · intro data h
    rcases hn : chainField data "nodes" with _ | _ | b | q | t | xs | fs
    case arr =>
      rcases he : chainField data "edges" with _ | _ | b2 | q2 | t2 | ys | fs2
      case arr =>
        rw [he] at h
        simp [isArray] at h
      all_goals simp [loadPersisted, hn, he]
    all_goals simp [loadPersisted, hn]
  · intro v h
    simp [migrateNodeCore, h, nullish, jsToString]
  · intro v h
    simp [migrateNodeCore, h, nullish, jsToNumber, BASE_W]
  · intro v h
    simp [migrateNodeCore, h, nullish, jsToNumber, BASE_H]
  · intro v h
    simp [migrateNodeCore, h, nullish]
  · intro v h
    simp [migrateNodeCore, h, fieldVal, jsTruthy]
  · intro v h
    simp [migrateEdgeCore, h, fieldVal, jsTruthy]

/-! ## Witnesses -/

/-- Witness for C1: removing node 2 from the two-node state is undone and
redone exactly. -/
theorem undo_redo_exact_inverses_witness :
    snapshot (undo (applyOp exEnv (MutOp.removeNodesOp [2]) twoNodeState))
        = snapshot twoNodeState ∧
    snapshot (redo (undo (applyOp exEnv (MutOp.removeNodesOp [2]) twoNodeState)))
        = snapshot (applyOp exEnv (MutOp.removeNodesOp [2]) twoNodeState) :=
  undo_redo_exact_inverses exEnv (MutOp.removeNodesOp [2]) twoNodeState
    (by with_unfolding_all decide)

set_option maxRecDepth 4000 in
/-- Witness for C2: after removing node 3 the surviving edge `1 → 2`
references no removed id. -/
theorem removeNodes_purges_edges_witness :
    ([3] : List ℕ).contains edge12.source = false ∧
    ([3] : List ℕ).contains edge12.target = false :=
  removeNodes_purges_edges exEnv [3] threeNodeState edge12
    (by with_unfolding_all decide)

/-- Witness for C3: linking 1 and 3 adds exactly one edge, and a repeated
call leaves exactly one edge between the pair. -/
theorem ensureEdge_spec_witness :
    (ensureEdge exEnv 1 3 twoNodeState).edges = twoNodeState.edges ++
      [{ id := exEnv.now, source := 1, target := 3, label := none, dashed := none }] ∧
    countPair (ensureEdge exEnv 1 3 (ensureEdge exEnv 1 3 twoNodeState)).edges 1 3 = 1 :=
  ⟨(ensureEdge_spec exEnv exEnv 1 3 twoNodeState).2.2.1 (by decide)
      (by with_unfolding_all decide),
   (ensureEdge_spec exEnv exEnv 1 3 twoNodeState).2.2.2.2.2 (by decide)
      (by with_unfolding_all decide)⟩

/-- Witness for C5 (amended): a one-word label fits its line budget. -/
theorem layoutLabel_fit_and_bounded_witness :
    approxTextWidth "hello" 14 ≤ (layoutLabel "hello" 14 120).width - 2 * 16 ∧
    (layoutLabel "hello" 14 120).lines.length ≤ 3 :=
  ⟨(layoutLabel_fit_and_bounded "hello" 14 120).1 "hello" (by with_unfolding_all decide),
   (layoutLabel_fit_and_bounded "hello" 14 120).2 (by with_unfolding_all decide)⟩

/-- Witness for C8 (amended): resizing the initial node (120 × 64) in the
initial state, with the in-box bounds instantiated. -/
theorem resize_keys_clamped_witness :
    ({ initialNode with
        w := min 420 (jsRound (initialNode.w * (6/5))),
        h := min 240 (jsRound (initialNode.h * (23/20))) }
          ∈ (resizePlusKey exState).nodes) ∧
    ({ initialNode with
        w := max 80 (jsRound (initialNode.w / (6/5))),
        h := max 48 (jsRound (initialNode.h / (23/20))) }
          ∈ (resizeMinusKey exState).nodes) ∧
    ((80 ≤ min 420 (jsRound (initialNode.w * (6/5))) ∧
      min 420 (jsRound (initialNode.w * (6/5))) ≤ 420 ∧
      48 ≤ min 240 (jsRound (initialNode.h * (23/20))) ∧
      min 240 (jsRound (initialNode.h * (23/20))) ≤ 240) ∧
     (80 ≤ max 80 (jsRound (initialNode.w / (6/5))) ∧
      max 80 (jsRound (initialNode.w / (6/5))) ≤ 420 ∧
      48 ≤ max 48 (jsRound (initialNode.h / (23/20))) ∧
      max 48 (jsRound (initialNode.h / (23/20))) ≤ 240)) :=
  ⟨(resize_keys_clamped exState initialNode (by with_unfolding_all decide) (by decide)).1,
   (resize_keys_clamped exState initialNode (by with_unfolding_all decide) (by decide)).2.1,
   (resize_keys_clamped exState initialNode (by with_unfolding_all decide) (by decide)).2.2
     (by with_unfolding_all decide) (by with_unfolding_all decide)
     (by with_unfolding_all decide) (by with_unfolding_all decide)⟩

/-- A concrete JS library environment for the load witnesses. -/
def exJSEnv : JSEnv :=
  { parseNum := fun _ => none, showOther := fun _ => "" }

/-- Witness for C9: a missing blob keeps the state, and an empty object
element receives every default. -/
theorem load_persisted_safe_witness :
    loadPersisted exJSEnv none ([], []) = ([], []) ∧
    (migrateNodeCore exJSEnv (JValue.obj [])).label = "" ∧
    (migrateNodeCore exJSEnv (JValue.obj [])).w = some 120 ∧
    (migrateNodeCore exJSEnv (JValue.obj [])).h = some 64 ∧
    (migrateNodeCore exJSEnv (JValue.obj [])).strokeColor = JValue.str "#333" ∧
    (migrateNodeCore exJSEnv (JValue.obj [])).bold = false ∧
    (migrateEdgeCore exJSEnv (JValue.obj [])).dashed = false :=
  ⟨(load_persisted_safe exJSEnv ([], [])).1,
   (load_persisted_safe exJSEnv ([], [])).2.2.2.1 (JValue.obj []) rfl,
   (load_persisted_safe exJSEnv ([], [])).2.2.2.2.1 (JValue.obj []) rfl,
   (load_persisted_safe exJSEnv ([], [])).2.2.2.2.2.1 (JValue.obj []) rfl,
   (load_persisted_safe exJSEnv ([], [])).2.2.2.2.2.2.1 (JValue.obj []) rfl,
   (load_persisted_safe exJSEnv ([], [])).2.2.2.2.2.2.2.1 (JValue.obj []) rfl,
   (load_persisted_safe exJSEnv ([], [])).2.2.2.2.2.2.2.2 (JValue.obj []) rfl⟩

/-- Witness for C10: `addChild(7)` in the one-node state (no node 7) is a
strict no-op returning 7. -/
theorem addChild_missing_parent_witness :
    addChild exEnv 7 exState = (exState, 7) :=
  addChild_missing_parent exEnv 7 exState (by with_unfolding_all decide)

end Mindmap
